import Mathlib

/-!
Shallow embedding of the FOC motor-control core of the esp-playground
repository (src/sensor.rs, src/pid.rs, src/util/velocity.rs,
src/motor/mod.rs, src/motor/foc.rs, src/motor/open_loop.rs).

Numeric idealization: the f32 and I16F16 fixed-point values of the source
are modelled as real numbers, the cordic sin_cos routine as Real.sin and
Real.cos, and the fixed-point literal 0.86602540378 (resp. the f32
constants PI and SQRT_3) as Real.sqrt 3 / 2 (resp. Real.pi and
Real.sqrt 3).  Durations and instants are natural numbers of
microseconds, as in esp-hal.  Control flow, clamping, truncation to
integer duty percentages, update order of mutable state, and the
error/panic behaviour are modelled exactly as written in the source.
-/

namespace EspFoc

/-- Rust clamp on reals: pulls the value to the nearer bound when it lies
outside the interval, matching `f32::clamp` and `Fixed::clamp` for
lo ≤ hi. -/
noncomputable def rclamp (x lo hi : ℝ) : ℝ :=
  if x < lo then lo else if x > hi then hi else x

/-- The sign of an f32 value cast to i32, as in `angle_delta.signum() as i32`
for a nonzero argument: -1 for negatives, 1 otherwise. -/
noncomputable def fsignum (x : ℝ) : ℤ :=
  if x < 0 then -1 else 1

/-- Truncation of a real toward zero, as the Rust `%` remainder uses. -/
noncomputable def rtrunc (x : ℝ) : ℤ :=
  if 0 ≤ x then ⌊x⌋ else ⌈x⌉

/-- Rounding of a real half away from zero, as `f32::round`. -/
noncomputable def rround (x : ℝ) : ℤ :=
  if 0 ≤ x then ⌊x + 1 / 2⌋ else ⌈x - 1 / 2⌉

/-- Model of `normalize_angle` from src/motor/mod.rs: remainder by 2π with the sign
of the dividend, shifted into [0, 2π). -/
noncomputable def normalize_angle (angle : ℝ) : ℝ :=
  let a := angle - 2 * Real.pi * (rtrunc (angle / (2 * Real.pi)) : ℝ)
  if a < 0 then a + 2 * Real.pi else a

/-- Snapshot from src/sensor.rs: instant and duration are microseconds. -/
structure Snapshot where
  instant : ℕ
  dt : ℕ
  total_angle : ℝ

/-- SensorState from src/sensor.rs.  The Velocity value type stores plain
radians per second, so it is modelled by its inner real. -/
structure SensorState where
  angle : ℝ
  prev : Snapshot
  full_rotations : ℤ
  velocity : ℝ

/-- The Default impl of SensorState: zero angle, a 1 ms previous interval
(1000 µs), zero rotations and zero velocity, stamped with the current
instant. -/
def SensorState.defaultState (now : ℕ) : SensorState :=
  { angle := 0
    prev := { instant := now, dt := 1000, total_angle := 0 }
    full_rotations := 0
    velocity := 0 }

/-- Model of `total_angle` from src/sensor.rs: full_rotations × 2π + angle. -/
noncomputable def SensorState.total_angle (s : SensorState) : ℝ :=
  (s.full_rotations : ℝ) * (2 * Real.pi) + s.angle

/-- Model of `SensorState::record` from src/sensor.rs.  The velocity uses
`Velocity::rad(Δtotal).per(prev.dt)`, i.e. Δtotal / dt_micros × 10⁶. -/
noncomputable def SensorState.record (s : SensorState) (new_angle : ℝ) (now : ℕ) :
    SensorState :=
  let angle_delta := new_angle - s.angle
  let full_rotations :=
    if 1.6 * Real.pi < |angle_delta| then s.full_rotations - fsignum angle_delta
    else s.full_rotations
  let total_angle := (full_rotations : ℝ) * (2 * Real.pi) + new_angle
  { angle := new_angle
    prev := { instant := now, dt := now - s.prev.instant, total_angle := total_angle }
    full_rotations := full_rotations
    velocity := (total_angle - s.prev.total_angle) / (s.prev.dt : ℝ) * 1e6 }

/-- PID state from src/pid.rs: integral, previous error, previous output. -/
structure PIDState where
  integral : ℝ
  err : ℝ
  output : ℝ

/-- PIDController from src/pid.rs. -/
structure PIDController where
  p : ℝ
  i : ℝ
  d : ℝ
  output_ramp : Option ℝ
  limit : ℝ
  state : PIDState

/-- The exact real value of `f32::MAX`, the default limit. -/
def f32Max : ℝ := 2 ^ 128 - 2 ^ 104

/-- Model of `PIDController::new`. -/
def PIDController.new : PIDController :=
  { p := 0, i := 0, d := 0, output_ramp := none, limit := f32Max
    state := { integral := 0, err := 0, output := 0 } }

/-- Model of `PIDController::compute` from src/pid.rs, in state-passing form: the
returned pair is the mutated controller and the output.  `dt` is a
duration in microseconds, converted by `as_micros() as f32 * 1e-6`. -/
noncomputable def PIDController.compute (c : PIDController)
    (target measure : ℝ) (dtMicros : ℕ) : PIDController × ℝ :=
  let dt : ℝ := (dtMicros : ℝ) * 1e-6
  let err := target - measure
  let p := c.p * err
  let i := rclamp (c.state.integral + c.i * dt * 0.5 * (err + c.state.err))
    (-c.limit) c.limit
  let d := c.d * (err - c.state.err) / dt
  let output := rclamp (p + i + d) (-c.limit) c.limit
  let output :=
    match c.output_ramp with
    | none => output
    | some ramp =>
      let rate := (output - c.state.output) / dt
      if rate > ramp then c.state.output + ramp * dt
      else if rate < -ramp then c.state.output - ramp * dt
      else output
  ({ c with state := { integral := i, err := err, output := output } }, output)

/-- The three PWM phases, in the order the struct fields are declared. -/
inductive Phase where
  | a
  | b
  | c
deriving DecidableEq, Repr

/-- External duty-cycle outputs: for each phase, the response of
`set_duty_cycle` to a given duty value — `none` on success, `some e` on
failure with error `e`. -/
structure PwmBehavior (ε : Type) where
  a : ℤ → Option ε
  b : ℤ → Option ε
  c : ℤ → Option ε

/-- Model of `ThreePhasePwm::volt_to_percent` from src/motor/mod.rs: the fixed-point
quotient volt × 100 / volt_max clamped to [0, 100], then truncated to a
u16 by `to_num`. -/
noncomputable def volt_to_percent (volt volt_max : ℝ) : ℤ :=
  ⌊rclamp (volt * 100 / volt_max) 0 100⌋

/-- Model of `ThreePhasePwm::set_duty`: commit to channel a, then b, then c, with
`?` propagation — the first failure returns immediately.  The returned
list records the channel commits that succeeded, in order. -/
def set_duty {ε : Type} (hw : PwmBehavior ε) (duty : ℤ × ℤ × ℤ) :
    List (Phase × ℤ) × Option ε :=
  match hw.a duty.1 with
  | some e => ([], some e)
  | none =>
    match hw.b duty.2.1 with
    | some e => ([(Phase.a, duty.1)], some e)
    | none =>
      match hw.c duty.2.2 with
      | some e => ([(Phase.a, duty.1), (Phase.b, duty.2.1)], some e)
      | none =>
        ([(Phase.a, duty.1), (Phase.b, duty.2.1), (Phase.c, duty.2.2)], none)

/-- Model of `ThreePhasePwm::set_voltage`: convert each phase voltage to a duty
percentage and hand the triple to set_duty. -/
noncomputable def set_voltage {ε : Type} (hw : PwmBehavior ε)
    (duty : ℝ × ℝ × ℝ) (volt_max : ℝ) : List (Phase × ℤ) × Option ε :=
  set_duty hw
    (volt_to_percent duty.1 volt_max,
     volt_to_percent duty.2.1 volt_max,
     volt_to_percent duty.2.2 volt_max)

/-- The data fields of `BLDC` from src/motor/mod.rs (the sensor hardware
and PWM channel handles live outside the state; the const generic POLE is
an ordinary field). -/
structure BLDCState where
  sensor : SensorState
  zero_electrical_angle : Option ℝ
  voltage_limit : ℝ
  velocity_limit : ℝ
  voltage_power_supply : ℝ
  kv : Option ℝ
  phase_resistance : Option ℝ
  phase_inductance : Option ℝ
  pole : ℕ

/-- Model of `BLDC::electrical_angle`: the bounded sensor angle times the pole-pair
count, minus the calibration offset (or zero), normalized. -/
noncomputable def BLDCState.electrical_angle (m : BLDCState) : ℝ :=
  normalize_angle (m.sensor.angle * (m.pole : ℝ) -
    (m.zero_electrical_angle.getD 0))

/-- Model of `BLDC::phase_voltage` from src/motor/mod.rs: inverse Park rotation,
two-to-three-phase expansion, then space-vector centering by
supply/2 − (max+min)/2. -/
noncomputable def BLDCState.phase_voltage (m : BLDCState)
    (volt_q volt_d angle : ℝ) : ℝ × ℝ × ℝ :=
  let sin := Real.sin angle
  let cos := Real.cos angle
  let alpha := cos * volt_d - sin * volt_q
  let beta := sin * volt_d + cos * volt_q
  let a := alpha
  let b := -0.5 * alpha + Real.sqrt 3 / 2 * beta
  let c := -0.5 * alpha - Real.sqrt 3 / 2 * beta
  let mn := min (min a b) c
  let mx := max (max a b) c
  let center := m.voltage_power_supply / 2 - (mx + mn) / 2
  (a + center, b + center, c + center)

/-- Model of `RPM_TO_RADS` from src/lib.rs. -/
def RPM_TO_RADS : ℝ := 0.10471976

/-- MotionControl from src/motor/foc.rs.  The ratchet variant carries the
RatchetState payload fields. -/
inductive MotionControl where
  | velocity (target : ℝ)
  | angle (target : ℝ)
  | torque (target : ℝ)
  | ratchet (steps : ℕ) (rad_per_step : ℝ)
  | limitPos (low high : ℝ)

/-- The Foc aggregate: motor state, motion-control mode and both PID
controllers (VelocityPID is the same controller with identity conversions
at the Velocity boundary). -/
structure FocState where
  motor : BLDCState
  motion_control : MotionControl
  velocity_pid : PIDController
  angle_pid : PIDController

/-- Outcome of one tick: a returned Ok, a returned Err, or a program
abort (panic from `expect`, `unwrap` or `todo`). -/
inductive TickOutcome (ε : Type) where
  | ok
  | err (e : ε)
  | panic
deriving DecidableEq

/-- Model of `Foc::calculate_qd` from src/motor/foc.rs.  The target is a Velocity
in rad/s.  Back-EMF compensation applies only when kv is configured; the
resistance and inductance terms likewise collapse when absent. -/
noncomputable def calculate_qd (m : BLDCState) (target : ℝ) : ℝ × ℝ :=
  let state := m.sensor
  let voltage_limit := m.voltage_limit
  let current := state.velocity
  let voltage_bemf :=
    match m.kv with
    | some kv => current / (kv * Real.sqrt 3) / RPM_TO_RADS
    | none => 0
  let q := rclamp
    (match m.phase_resistance with
     | some r => target * r + voltage_bemf
     | none => target)
    (-voltage_limit) voltage_limit
  let d := rclamp
    (match m.phase_inductance with
     | some l => -target * current * (m.pole : ℝ) * l
     | none => 0)
    (-voltage_limit) voltage_limit
  (q, d)

/-- The tail of `Foc::tick` shared by all driving modes: transform the
(q, d) pair at the electrical angle and commit to the PWM, turning the
set_voltage result into the tick result. -/
noncomputable def Foc.commit {ε : Type} (f : FocState) (q d ea : ℝ)
    (hw : PwmBehavior ε) : FocState × List (Phase × ℤ) × TickOutcome ε :=
  let v := f.motor.phase_voltage q d ea
  let r := set_voltage hw v f.motor.voltage_power_supply
  (f, r.1,
    match r.2 with
    | none => TickOutcome.ok
    | some e => TickOutcome.err e)

/-- Model of `Foc::tick` from src/motor/foc.rs.  Inputs beyond the state: the
result of the external angle read for this tick, the current instant in
microseconds, and the duty-cycle output behaviour.  Outputs: the new
state, the channel commits performed, and the outcome.  A failed sensor
read hits `expect` and panics before any state change; LimitPos hits
`todo` and panics after the sensor refresh. -/
noncomputable def Foc.tick {ε : Type} (f : FocState) (read : Except Unit ℝ)
    (now : ℕ) (hw : PwmBehavior ε) :
    FocState × List (Phase × ℤ) × TickOutcome ε :=
  match read with
  | Except.error _ => (f, [], TickOutcome.panic)
  | Except.ok new_angle =>
    let motor := { f.motor with sensor := f.motor.sensor.record new_angle now }
    let state := motor.sensor
    let electrical_angle := motor.electrical_angle
    let elapsed := state.prev.dt
    let velocity_limit := motor.velocity_limit
    match f.motion_control with
    | MotionControl.limitPos _ _ =>
      ({ f with motor := motor }, [], TickOutcome.panic)
    | MotionControl.torque target =>
      let qd := calculate_qd motor target
      Foc.commit { f with motor := motor } qd.1 qd.2 electrical_angle hw
    | MotionControl.angle target =>
      if |target - state.total_angle| < 3e-2 then
        ({ f with motor := motor }, [], TickOutcome.ok)
      else
        let ar := f.angle_pid.compute target state.total_angle elapsed
        let vr := f.velocity_pid.compute ar.2 state.velocity elapsed
        let qd := calculate_qd motor vr.2
        Foc.commit
          { f with motor := motor, angle_pid := ar.1, velocity_pid := vr.1 }
          qd.1 qd.2 electrical_angle hw
    | MotionControl.velocity target =>
      let vr := f.velocity_pid.compute target state.velocity elapsed
      let qd := calculate_qd motor vr.2
      Foc.commit { f with motor := motor, velocity_pid := vr.1 }
        qd.1 qd.2 electrical_angle hw
    | MotionControl.ratchet _steps rad_per_step =>
      let step := rad_per_step
      let total := state.total_angle
      let target := (rround (total / step) : ℝ) * step
      if |target - total| < 1e-2 then
        ({ f with motor := motor }, [], TickOutcome.ok)
      else
        let ar := f.angle_pid.compute target total elapsed
        let vr := f.velocity_pid.compute ar.2 state.velocity elapsed
        let v := rclamp vr.2 (-velocity_limit) velocity_limit
        let qd := calculate_qd motor v
        Foc.commit
          { f with motor := motor, angle_pid := ar.1, velocity_pid := vr.1 }
          qd.1 qd.2 electrical_angle hw

/-- OpenLoop from src/motor/open_loop.rs. -/
structure OpenLoopState where
  motor : BLDCState
  prev_tick : ℕ
  shaft_angle : ℝ
  velocity : ℝ

/-- Model of `OpenLoop::tick` from src/motor/open_loop.rs: refresh the sensor
(unwrap — panic on failure), integrate the target velocity into the shaft
angle, normalize, and drive phase_voltage at half the voltage limit on
the q axis with zero d, committing with the voltage limit as ceiling
(unwrap — panic on a PWM failure). -/
noncomputable def OpenLoop.tick {ε : Type} (o : OpenLoopState)
    (read : Except Unit ℝ) (now : ℕ) (hw : PwmBehavior ε) :
    OpenLoopState × List (Phase × ℤ) × TickOutcome ε :=
  match read with
  | Except.error _ => (o, [], TickOutcome.panic)
  | Except.ok new_angle =>
    let motor := { o.motor with sensor := o.motor.sensor.record new_angle now }
    let dt := ((now - o.prev_tick : ℕ) : ℝ) * 1e-6
    let limit := motor.voltage_limit
    let shaft_angle := normalize_angle (o.shaft_angle + dt * o.velocity)
    let electronic_angle := shaft_angle * (motor.pole : ℝ)
    let pv := motor.phase_voltage (limit / 2) 0 electronic_angle
    let r := set_voltage hw pv limit
    ({ o with motor := motor, prev_tick := now, shaft_angle := shaft_angle },
      r.1,
      match r.2 with
      | none => TickOutcome.ok
      | some _ => TickOutcome.panic)

/-- Forward Clarke and Park transform, written from the round-trip
property in the spec: recover alpha and beta from the three phases
(alpha = a, beta = (b − c)/√3), then rotate by −angle to return to the
rotor frame, yielding the (q, d) pair. -/
noncomputable def forward_transform (a b c angle : ℝ) : ℝ × ℝ :=
  let alpha := a
  let beta := (b - c) / Real.sqrt 3
  (Real.cos angle * beta - Real.sin angle * alpha,
   Real.cos angle * alpha + Real.sin angle * beta)

/-- Concrete sensor state with a saved previous interval of 1000 µs,
used to separate the previous-interval velocity divisor from the
current-tick one. -/
def sensC7 : SensorState :=
  { angle := 0, prev := { instant := 0, dt := 1000, total_angle := 0 }
    full_rotations := 0, velocity := 0 }

/-- Concrete controller used to witness the integral invariant. -/
def pidW : PIDController :=
  { p := 1, i := 3, d := 0, output_ramp := none, limit := 12
    state := { integral := 5, err := 0, output := 0 } }

/-- Concrete duty-cycle outputs whose b channel always fails with error 7
while a and c always succeed. -/
def hwBfail : PwmBehavior ℕ :=
  { a := fun _ => none, b := fun _ => some 7, c := fun _ => none }

/-- The common space-vector centering offset of phase_voltage:
supply/2 − (max+min)/2 over the three uncentered phase voltages. -/
noncomputable def svmCenter (m : BLDCState) (volt_q volt_d angle : ℝ) : ℝ :=
  let alpha := Real.cos angle * volt_d - Real.sin angle * volt_q
  let beta := Real.sin angle * volt_d + Real.cos angle * volt_q
  let a := alpha
  let b := -0.5 * alpha + Real.sqrt 3 / 2 * beta
  let c := -0.5 * alpha - Real.sqrt 3 / 2 * beta
  m.voltage_power_supply / 2 - (max (max a b) c + min (min a b) c) / 2

/-- Duty-cycle outputs on which every commit succeeds. -/
def hw0 : PwmBehavior ℕ :=
  { a := fun _ => none, b := fun _ => none, c := fun _ => none }

/-- A concrete motor state: default sensor, no calibration offset, no
motor parameters, 12 V limits, 7 pole pairs. -/
def motorW : BLDCState :=
  { sensor := SensorState.defaultState 0, zero_electrical_angle := none
    voltage_limit := 12, velocity_limit := 100, voltage_power_supply := 12
    kv := none, phase_resistance := none, phase_inductance := none, pole := 7 }

/-- A concrete Foc state in Angle mode with target 1.5 rad. -/
def focW : FocState :=
  { motor := motorW, motion_control := MotionControl.angle 1.5
    velocity_pid := PIDController.new, angle_pid := PIDController.new }

section SensorTheorems

/-- Helper: division by a duration in seconds equals division by the
microsecond count times 10⁶, for every real duration including zero. -/
theorem div_usecs_eq (x d : ℝ) : x / d * 1e6 = x / (d * 1e-6) := by
  rcases eq_or_ne d 0 with h | h
  · simp [h]
  · field_simp
    ring

/-- C2: recording a new bounded angle adjusts the revolution counter by
exactly minus the sign of the angle delta when the delta magnitude
exceeds 1.6π and leaves it unchanged otherwise; the raw-angle sequence
[0.1, 6.2] from the zeroed default state drops the counter to −1 and
moves the continuous angle from 0.1 down to 6.2 − 2π. -/
theorem record_full_rotations_spec :
    (∀ (s : SensorState) (a : ℝ) (now : ℕ),
      (s.record a now).full_rotations =
        if 1.6 * Real.pi < |a - s.angle| then
          (if 0 < a - s.angle then s.full_rotations - 1 else s.full_rotations + 1)
        else s.full_rotations) ∧
    (((SensorState.defaultState 0).record 0.1 1000).full_rotations = 0 ∧
      (((SensorState.defaultState 0).record 0.1 1000).record 6.2 2000).full_rotations = -1 ∧
      ((SensorState.defaultState 0).record 0.1 1000).total_angle = 0.1 ∧
      (((SensorState.defaultState 0).record 0.1 1000).record 6.2 2000).total_angle =
        6.2 - 2 * Real.pi ∧
      (((SensorState.defaultState 0).record 0.1 1000).record 6.2 2000).total_angle <
        ((SensorState.defaultState 0).record 0.1 1000).total_angle) := by
  have hpi3 := Real.pi_gt_three
  have hpi315 := Real.pi_lt_d2
  constructor
  · intro s a now
    simp only [SensorState.record, fsignum]
    by_cases hbig : 1.6 * Real.pi < |a - s.angle|
    · rw [if_pos hbig, if_pos hbig]
      have hne : a - s.angle ≠ 0 := by
        intro h0
        rw [h0] at hbig
        simp at hbig
        nlinarith
      by_cases hlt : a - s.angle < 0
      · rw [if_pos hlt, if_neg (by linarith)]
        ring
      · rw [if_neg hlt, if_pos (lt_of_le_of_ne (not_lt.mp hlt) (Ne.symm hne))]
    · rw [if_neg hbig, if_neg hbig]
  · have h1 : ¬ (1.6 * Real.pi < |(0.1 : ℝ) - 0|) := by
      rw [abs_of_nonneg (by norm_num)]
      nlinarith
    have hs1 : (SensorState.defaultState 0).record 0.1 1000 =
        { angle := 0.1, prev := { instant := 1000, dt := 1000, total_angle := 0.1 },
          full_rotations := 0, velocity := 100 } := by
      simp only [SensorState.record, SensorState.defaultState, if_neg h1]
      norm_num
    have h2 : 1.6 * Real.pi < |(6.2 : ℝ) - 0.1| := by
      rw [abs_of_nonneg (by norm_num)]
      nlinarith
    have hs2 : (((SensorState.defaultState 0).record 0.1 1000).record 6.2 2000).full_rotations
        = -1 := by
      rw [hs1]
      simp only [SensorState.record, fsignum, if_pos h2]
      norm_num
    refine ⟨by rw [hs1], hs2, by rw [hs1]; simp [SensorState.total_angle], ?_, ?_⟩
    · simp only [SensorState.total_angle, hs2]
      rw [hs1]
      simp only [SensorState.record, fsignum, if_pos h2]
      norm_num
      ring
    · have hpi314 := Real.pi_gt_d6
      simp only [SensorState.total_angle, hs2]
      rw [hs1]
      simp only [SensorState.record, fsignum, if_pos h2]
      norm_num
      nlinarith

/-- C7: the velocity stored by record is the continuous-angle change
divided by the interval length saved at the previous record, and not by
the elapsed time of the current tick, which in general gives a different
value. -/
theorem record_velocity_uses_prev_dt :
    (∀ (s : SensorState) (a : ℝ) (now : ℕ),
      (s.record a now).velocity =
        ((s.record a now).total_angle - s.prev.total_angle) /
          ((s.prev.dt : ℝ) * 1e-6)) ∧
    ((sensC7.record 1 2000000).velocity ≠
      ((sensC7.record 1 2000000).total_angle - sensC7.prev.total_angle) /
        (((sensC7.record 1 2000000).prev.dt : ℝ) * 1e-6)) := by
  constructor
  · intro s a now
    simp only [SensorState.record, SensorState.total_angle]
    rw [div_usecs_eq]
  · have hpi3 := Real.pi_gt_three
    have h1 : ¬ (1.6 * Real.pi < |(1 : ℝ) - 0|) := by
      rw [abs_of_nonneg (by norm_num)]
      nlinarith
    simp only [sensC7, SensorState.record, SensorState.total_angle, fsignum, if_neg h1]
    norm_num

end SensorTheorems

section PIDTheorems

/-- Helper: the result of the Rust clamp to a symmetric interval has
magnitude bounded by the (nonnegative) bound. -/
theorem abs_rclamp_le {l : ℝ} (hl : 0 ≤ l) (x : ℝ) : |rclamp x (-l) l| ≤ l := by
  unfold rclamp
  split_ifs with h1 h2
  · rw [abs_neg, abs_of_nonneg hl]
  · rw [abs_of_nonneg hl]
  · exact abs_le.mpr ⟨not_lt.mp h1, not_lt.mp h2⟩

/-- C3: a pure proportional controller with unit gain, fresh zero state,
target 10, returns 10 at measured 0 and then 9 at measured 1, with one
second elapsed each call. -/
theorem pid_scenario_two_calls :
    (({ PIDController.new with p := 1 } : PIDController).compute 10 0 1000000).2 = 10 ∧
    ((({ PIDController.new with p := 1 } : PIDController).compute 10 0 1000000).1.compute
      10 1 1000000).2 = 9 := by
  have hM : (10 : ℝ) ≤ f32Max := by
    unfold f32Max
    norm_num
  constructor
  · simp only [PIDController.compute, PIDController.new, rclamp]
    norm_num [f32Max]
  · simp only [PIDController.compute, PIDController.new, rclamp]
    norm_num [f32Max]

/-- C5: compute clamps the integral to the configured limit before
persisting it, so if the stored integral starts within the limit in
magnitude it stays within the limit after every call. -/
theorem pid_integral_bounded (c : PIDController) (target measure : ℝ)
    (dtMicros : ℕ) (h : |c.state.integral| ≤ c.limit) :
    |((c.compute target measure dtMicros).1.state.integral)| ≤
      (c.compute target measure dtMicros).1.limit := by
  have hl : 0 ≤ c.limit := le_trans (abs_nonneg _) h
  simp only [PIDController.compute]
  exact abs_rclamp_le hl _

/-- Witness for C5 at a concrete controller with limit 12 and stored
integral 5. -/
theorem pid_integral_bounded_witness :
    |((pidW.compute 1 0 1000).1.state.integral)| ≤ (pidW.compute 1 0 1000).1.limit :=
  pid_integral_bounded pidW 1 0 1000 (by norm_num [pidW])

end PIDTheorems

section PwmTheorems

/-- C9 counterexample: at V = 1, Vmax = 3 the commit percentage is the
integer 33, not the clamped quotient 100/3, so the conversion is not the
exact clamp value. -/
theorem volt_to_percent_not_exact_clamp :
    ((volt_to_percent 1 3 : ℤ) : ℝ) ≠ rclamp (1 * 100 / 3) 0 100 := by
  have hfloor : volt_to_percent 1 3 = 33 := by
    unfold volt_to_percent rclamp
    rw [if_neg (by norm_num), if_neg (by norm_num), Int.floor_eq_iff]
    norm_num
  rw [hfloor]
  unfold rclamp
  rw [if_neg (by norm_num), if_neg (by norm_num)]
  norm_num

/-- C9 amended: volt_to_percent is the integer truncation of
clamp(V×100/Vmax, 0, 100); for a positive ceiling it is exactly 0 at or
below zero voltage and exactly 100 at or above the ceiling. -/
theorem volt_to_percent_floor_clamp (v vmax : ℝ) (hpos : 0 < vmax) :
    volt_to_percent v vmax = ⌊rclamp (v * 100 / vmax) 0 100⌋ ∧
    (v ≤ 0 → volt_to_percent v vmax = 0) ∧
    (vmax ≤ v → volt_to_percent v vmax = 100) := by
  refine ⟨rfl, ?_, ?_⟩
  · intro hv
    have hx : v * 100 / vmax ≤ 0 :=
      div_nonpos_of_nonpos_of_nonneg (by linarith) (le_of_lt hpos)
    unfold volt_to_percent rclamp
    split_ifs with h1 h2
    · simp
    · linarith
    · have : v * 100 / vmax = 0 := le_antisymm hx (not_lt.mp h1)
      rw [this]
      simp
  · intro hv
    have hx : (100 : ℝ) ≤ v * 100 / vmax := by
      rw [le_div_iff₀ hpos]
      linarith
    unfold volt_to_percent rclamp
    split_ifs with h1 h2
    · linarith
    · simp
    · have : v * 100 / vmax = 100 := le_antisymm (not_lt.mp h2) hx
      rw [this]
      simp

/-- Witness for C9 amended at V = −1 and V = 15 against Vmax = 12. -/
theorem volt_to_percent_floor_clamp_witness :
    volt_to_percent (-1) 12 = 0 ∧ volt_to_percent 15 12 = 100 :=
  ⟨(volt_to_percent_floor_clamp (-1) 12 (by norm_num)).2.1 (by norm_num),
   (volt_to_percent_floor_clamp 15 12 (by norm_num)).2.2 (by norm_num)⟩

/-- C8: set_voltage commits the duty percentages in the order a, b, c;
the first failing channel ends the call with the error of that channel, the
channels committed before it stay committed, and the channels after it
are never attempted (the result is the same for every behaviour of the
later channels). -/
theorem set_voltage_order_failure {ε : Type} (hw : PwmBehavior ε)
    (va vb vc vmax : ℝ) (e : ε) :
    (hw.a (volt_to_percent va vmax) = some e →
      set_voltage hw (va, vb, vc) vmax = ([], some e)) ∧
    (hw.a (volt_to_percent va vmax) = none →
      hw.b (volt_to_percent vb vmax) = some e →
      set_voltage hw (va, vb, vc) vmax =
        ([(Phase.a, volt_to_percent va vmax)], some e)) ∧
    (hw.a (volt_to_percent va vmax) = none →
      hw.b (volt_to_percent vb vmax) = none →
      hw.c (volt_to_percent vc vmax) = some e →
      set_voltage hw (va, vb, vc) vmax =
        ([(Phase.a, volt_to_percent va vmax),
          (Phase.b, volt_to_percent vb vmax)], some e)) ∧
    (hw.a (volt_to_percent va vmax) = none →
      hw.b (volt_to_percent vb vmax) = none →
      hw.c (volt_to_percent vc vmax) = none →
      set_voltage hw (va, vb, vc) vmax =
        ([(Phase.a, volt_to_percent va vmax),
          (Phase.b, volt_to_percent vb vmax),
          (Phase.c, volt_to_percent vc vmax)], none)) := by
  refine ⟨?_, ?_, ?_, ?_⟩ <;>
    intros <;>
    simp only [set_voltage, set_duty, *]

/-- Witness for C8: with a failing b channel, set_voltage keeps the a
commit, reports error 7, and never reaches c. -/
theorem set_voltage_order_failure_witness :
    set_voltage hwBfail ((6 : ℝ), (6 : ℝ), (6 : ℝ)) 12 =
      ([(Phase.a, volt_to_percent 6 12)], some 7) :=
  (set_voltage_order_failure hwBfail 6 6 6 12 7).2.1 rfl rfl

end PwmTheorems

section TransformTheorems

/-- Helper: the forward transform undoes the inverse rotation and the
two-to-three-phase expansion on uncentered phases. -/
theorem forward_transform_inverse (vq vd θ : ℝ) :
    forward_transform
      (Real.cos θ * vd - Real.sin θ * vq)
      (-0.5 * (Real.cos θ * vd - Real.sin θ * vq) +
        Real.sqrt 3 / 2 * (Real.sin θ * vd + Real.cos θ * vq))
      (-0.5 * (Real.cos θ * vd - Real.sin θ * vq) -
        Real.sqrt 3 / 2 * (Real.sin θ * vd + Real.cos θ * vq))
      θ = (vq, vd) := by
  have h3 : Real.sqrt 3 ≠ 0 := by
    have := Real.sqrt_pos.mpr (by norm_num : (0 : ℝ) < 3)
    linarith
  have hsc := Real.sin_sq_add_cos_sq θ
  have hbeta :
      ((-0.5 * (Real.cos θ * vd - Real.sin θ * vq) +
          Real.sqrt 3 / 2 * (Real.sin θ * vd + Real.cos θ * vq)) -
        (-0.5 * (Real.cos θ * vd - Real.sin θ * vq) -
          Real.sqrt 3 / 2 * (Real.sin θ * vd + Real.cos θ * vq))) / Real.sqrt 3 =
        Real.sin θ * vd + Real.cos θ * vq := by
    rw [show
      (-0.5 * (Real.cos θ * vd - Real.sin θ * vq) +
          Real.sqrt 3 / 2 * (Real.sin θ * vd + Real.cos θ * vq)) -
        (-0.5 * (Real.cos θ * vd - Real.sin θ * vq) -
          Real.sqrt 3 / 2 * (Real.sin θ * vd + Real.cos θ * vq)) =
        Real.sqrt 3 * (Real.sin θ * vd + Real.cos θ * vq) from by ring]
    exact mul_div_cancel_left₀ _ h3
  simp only [forward_transform]
  rw [hbeta]
  refine Prod.ext ?_ ?_
  · show Real.cos θ * (Real.sin θ * vd + Real.cos θ * vq) -
      Real.sin θ * (Real.cos θ * vd - Real.sin θ * vq) = vq
    linear_combination vq * hsc
  · show Real.cos θ * (Real.cos θ * vd - Real.sin θ * vq) +
      Real.sin θ * (Real.sin θ * vd + Real.cos θ * vq) = vd
    linear_combination vd * hsc

/-- C4: phase_voltage is the inverse Park rotation followed by the
two-to-three-phase expansion, all three outputs shifted by the common
centering offset; removing that common offset and applying the forward
transform recovers the (q, d) pair exactly. -/
theorem phase_voltage_inverse_park_roundtrip (m : BLDCState) (vq vd θ : ℝ) :
    (m.phase_voltage vq vd θ =
      (Real.cos θ * vd - Real.sin θ * vq + svmCenter m vq vd θ,
       -0.5 * (Real.cos θ * vd - Real.sin θ * vq) +
         Real.sqrt 3 / 2 * (Real.sin θ * vd + Real.cos θ * vq) + svmCenter m vq vd θ,
       -0.5 * (Real.cos θ * vd - Real.sin θ * vq) -
         Real.sqrt 3 / 2 * (Real.sin θ * vd + Real.cos θ * vq) + svmCenter m vq vd θ)) ∧
    forward_transform
      ((m.phase_voltage vq vd θ).1 - svmCenter m vq vd θ)
      ((m.phase_voltage vq vd θ).2.1 - svmCenter m vq vd θ)
      ((m.phase_voltage vq vd θ).2.2 - svmCenter m vq vd θ) θ = (vq, vd) := by
  have heq : m.phase_voltage vq vd θ =
      (Real.cos θ * vd - Real.sin θ * vq + svmCenter m vq vd θ,
       -0.5 * (Real.cos θ * vd - Real.sin θ * vq) +
         Real.sqrt 3 / 2 * (Real.sin θ * vd + Real.cos θ * vq) + svmCenter m vq vd θ,
       -0.5 * (Real.cos θ * vd - Real.sin θ * vq) -
         Real.sqrt 3 / 2 * (Real.sin θ * vd + Real.cos θ * vq) + svmCenter m vq vd θ) := rfl
  refine ⟨heq, ?_⟩
  rw [heq]
  simp only [add_sub_cancel_right]
  exact forward_transform_inverse vq vd θ

end TransformTheorems

section TickTheorems

/-- C1 amended: a failed sensor read makes tick panic at the `expect`
call — the program aborts with the state untouched, nothing is committed
to the PWM, and no error value is returned for the caller to act on. -/
theorem foc_tick_sensor_fail_panics {ε : Type} (f : FocState) (now : ℕ)
    (hw : PwmBehavior ε) (e : Unit) :
    Foc.tick f (Except.error e) now hw = (f, [], TickOutcome.panic) := rfl

/-- C1 counterexample: at a concrete state and a failing sensor read, the
tick outcome is a panic, not a returned error — the program is aborted,
so the error is not surfaced to the caller. -/
theorem foc_tick_sensor_fail_counter :
    Foc.tick focW (Except.error ()) 0 hw0 = (focW, [], TickOutcome.panic) := rfl

/-- C6: in Angle mode, when the freshly recorded continuous angle is
within the 3×10⁻² dead-band of the target, tick returns Ok having only
refreshed the sensor: no PWM commit happens and both PID controllers keep
their state. -/
theorem foc_angle_deadband_noop {ε : Type} (f : FocState) (hw : PwmBehavior ε)
    (target r : ℝ) (now : ℕ)
    (hmode : f.motion_control = MotionControl.angle target)
    (hband : |target - (f.motor.sensor.record r now).total_angle| < 3e-2) :
    Foc.tick f (Except.ok r) now hw =
      ({ f with motor := { f.motor with sensor := f.motor.sensor.record r now } },
        [], TickOutcome.ok) := by
  simp only [Foc.tick, hmode]
  rw [if_pos hband]

/-- Witness for C6: with target 1.5 rad and a fresh reading of 1.49 rad
(continuous angle 1.49, inside the dead-band), tick is a sensor-only
refresh. -/
theorem foc_angle_deadband_noop_witness :
    Foc.tick focW (Except.ok 1.49) 1000 hw0 =
      ({ focW with
          motor := { focW.motor with sensor := focW.motor.sensor.record 1.49 1000 } },
        [], TickOutcome.ok) := by
  refine foc_angle_deadband_noop focW hw0 1.5 1.49 1000 rfl ?_
  have hpi3 := Real.pi_gt_three
  have h1 : ¬ (1.6 * Real.pi < |(1.49 : ℝ) - 0|) := by
    rw [abs_of_nonneg (by norm_num)]
    nlinarith
  simp only [focW, motorW, SensorState.defaultState, SensorState.record,
    SensorState.total_angle, fsignum, if_neg h1]
  rw [abs_lt]
  norm_num

/-- C10: for a successful sensor read, the duty cycles OpenLoop commits
do not depend on the value read — two runs differing only in the reading
commit identically — and equal the transform of half the voltage limit on
the q axis, zero d, at the dead-reckoned normalized shaft angle times the
pole-pair count; a failed read panics at the `unwrap`. -/
theorem open_loop_duty_independent {ε : Type} (o : OpenLoopState) (now : ℕ)
    (hw : PwmBehavior ε) (r1 r2 : ℝ) :
    ((OpenLoop.tick o (Except.ok r1) now hw).2.1 =
      (OpenLoop.tick o (Except.ok r2) now hw).2.1) ∧
    ((OpenLoop.tick o (Except.ok r1) now hw).2.1 =
      (set_voltage hw
        (o.motor.phase_voltage (o.motor.voltage_limit / 2) 0
          (normalize_angle (o.shaft_angle +
            ((now - o.prev_tick : ℕ) : ℝ) * 1e-6 * o.velocity) * (o.motor.pole : ℝ)))
        o.motor.voltage_limit).1) ∧
    ((OpenLoop.tick o (Except.error ()) now hw).2.2 = TickOutcome.panic) :=
  ⟨rfl, rfl, rfl⟩

end TickTheorems

end EspFoc
